import Mathlib

/-!
Shallow embedding of the bakery ordering backend (`src/main.py`, `src/schemas.py`).

Modelling conventions:
* MongoDB collections become Lean lists of document structures; the two
  collections used by the endpoints are `bakeryitem` and `order`, held in `DB`.
* Python floats (prices, totals) become `ℚ`; `round(x, 2)` becomes `round2`.
* `bson.ObjectId(s)` succeeds exactly when `s` is a 24-character hex string
  (either case; `bytes.fromhex` is case-insensitive); this is
  `isValidObjectId`.  A stored document's id is kept as its canonical string
  form `str(doc["_id"])`, which is lowercase hex.  A store filter on `_id`
  (`update_one`/`find_one`) compares ObjectId values, i.e. the request string
  normalized to lowercase hex (`normalizeOid`) against the canonical stored
  form.  The `place_order` availability lookup is different: there the source
  queries a dict keyed by `str(doc["_id"])` with the raw request string, so
  raw string equality is the faithful (and observationally exact) model —
  an uppercase alias misses that dict in program and model alike.
* `HTTPException(status_code, detail)` becomes the `ApiError` structure.
* `datetime.utcnow()` is passed in explicitly as a `DateTime` value; an
  endpoint that reads the clock takes it as an argument.
* Endpoints that may write are modelled as `DB → ... → DB × Except ApiError β`:
  the returned `DB` is the state of the store after the call, including the
  case where the call fails after a store operation already ran.
-/

/-- Calendar timestamp at second resolution (UTC), standing for a Python
`datetime` value as used by `datetime.utcnow()`. -/
structure DateTime where
  year : Nat
  month : Nat
  day : Nat
  hour : Nat
  minute : Nat
  second : Nat
deriving DecidableEq, Repr

/-- Zero-pad a numeral to two digits, as `strftime` field specifiers such as
`%m`, `%d`, `%H`, `%M`, `%S` do. -/
def pad2 (n : Nat) : String :=
  if n < 10 then "0" ++ toString n else toString n

/-- Zero-pad a numeral to four digits, as `strftime`'s `%Y` does. -/
def pad4 (n : Nat) : String :=
  if n < 10 then "000" ++ toString n
  else if n < 100 then "00" ++ toString n
  else if n < 1000 then "0" ++ toString n
  else toString n

/-- `strftime('%Y%m%d%H%M%S')` on a `DateTime` (src/main.py line 151). -/
def fmtCompact (t : DateTime) : String :=
  pad4 t.year ++ pad2 t.month ++ pad2 t.day ++ pad2 t.hour ++ pad2 t.minute ++ pad2 t.second

/-- Mongo `$dateToString` with format `%Y-%m-%d` (src/main.py line 207). -/
def fmtDate (t : DateTime) : String :=
  pad4 t.year ++ "-" ++ pad2 t.month ++ "-" ++ pad2 t.day

/-- A character is a hexadecimal digit (`bytes.fromhex` accepts either case). -/
def isHexChar (c : Char) : Bool :=
  (c.toNat ≥ 48 && c.toNat ≤ 57) || (c.toNat ≥ 97 && c.toNat ≤ 102) ||
    (c.toNat ≥ 65 && c.toNat ≤ 70)

/-- Whether `bson.ObjectId(s)` succeeds on a string: 24 hex characters. -/
def isValidObjectId (s : String) : Bool :=
  s.length == 24 && s.data.all isHexChar

/-- Lowercase an uppercase hex digit, leaving other characters alone. -/
def hexLower (c : Char) : Char :=
  if c.toNat ≥ 65 && c.toNat ≤ 70 then Char.ofNat (c.toNat + 32) else c

/-- The canonical string form of `ObjectId(s)`: `str(ObjectId(s))` is the
lowercase hex rendering of the parsed bytes, so on a well-formed id it is the
input with hex digits lowercased.  Two well-formed strings denote the same
ObjectId value exactly when their normal forms are equal. -/
def normalizeOid (s : String) : String :=
  ⟨s.data.map hexLower⟩

/-- Python `round(x, 2)`: to the nearest multiple of 1/100.  (Python's float
round breaks exact ties to even; exact ties are a measure-zero float artifact
and the claims never exercise them, so nearest rounding is used.) -/
def round2 (x : ℚ) : ℚ :=
  (round (x * 100) : ℚ) / 100

/-- Request model `CustomerInfoIn` (src/main.py lines 33-39). -/
structure CustomerInfoIn where
  name : String
  email : Option String := none
  phone : Option String := none
  address : Option String := none
  notes : Option String := none
  fulfillment : String := "pickup"
deriving DecidableEq, Repr

/-- Request model `OrderItemIn` (src/main.py lines 42-44).  The pydantic
constraint `quantity ≥ 1` is enforced by FastAPI before the handler runs. -/
structure OrderItemIn where
  item_id : String
  quantity : Nat
deriving DecidableEq, Repr

/-- Request model `CreateOrderRequest` (src/main.py lines 47-49). -/
structure CreateOrderRequest where
  items : List OrderItemIn
  customer : CustomerInfoIn
deriving DecidableEq, Repr

/-- Request/validation model `BakeryItem` (src/schemas.py lines 19-29). -/
structure BakeryItem where
  name : String
  description : Option String := none
  price : ℚ
  image_url : Option String := none
  category : Option String := none
  available : Bool := true
deriving DecidableEq, Repr

/-- A document of the `bakeryitem` collection: the `BakeryItem` fields plus the
Mongo `_id` (kept as its canonical string form) and bookkeeping timestamp. -/
structure BakeryItemDoc where
  id : String
  name : String
  description : Option String := none
  price : ℚ
  image_url : Option String := none
  category : Option String := none
  available : Bool := true
  updated_at : Option DateTime := none
deriving DecidableEq, Repr

/-- One element of an order's `items` array as built at src/main.py
lines 143-149: the price/name snapshot for one requested line. -/
structure OrderLine where
  item_id : String
  name : String
  unit_price : ℚ
  quantity : Nat
  subtotal : ℚ
deriving DecidableEq, Repr

/-- The `order_doc` dictionary built at src/main.py lines 152-158, before
persistence adds the generated id and creation timestamp. -/
structure OrderDocIn where
  items : List OrderLine
  customer : CustomerInfoIn
  status : String
  total_amount : ℚ
  order_number : String
deriving DecidableEq, Repr

/-- A document of the `order` collection. -/
structure OrderDoc where
  id : String
  items : List OrderLine
  customer : CustomerInfoIn
  status : String
  total_amount : ℚ
  order_number : String
  created_at : DateTime
  updated_at : Option DateTime := none
deriving DecidableEq, Repr

/-- The two collections the endpoints touch. -/
structure DB where
  items : List BakeryItemDoc
  orders : List OrderDoc
deriving DecidableEq, Repr

/-- `HTTPException(status_code, detail)`. -/
structure ApiError where
  status_code : Nat
  detail : String
deriving DecidableEq, Repr

/-- Modelled from the spec: `database.create_document` (imported at
src/main.py line 10 from `database.py`, which is not part of the provided
sources).  Per spec §4.1 step 7 it persists the document, assigning a
system-generated unique identifier and creation timestamp; the fresh id and
the clock reading are passed in explicitly.  Returns the updated collection
and the stored document (which `find_one` then retrieves). -/
def create_document_order (db : DB) (doc : OrderDocIn) (fresh : String)
    (now : DateTime) : DB × OrderDoc :=
  let stored : OrderDoc :=
    { id := fresh
      items := doc.items
      customer := doc.customer
      status := doc.status
      total_amount := doc.total_amount
      order_number := doc.order_number
      created_at := now }
  ({ db with orders := db.orders ++ [stored] }, stored)

/-- The validation loop at src/main.py lines 124-129: convert each requested
`item_id` with `ObjectId`, raising on the first malformed one.  Returns the
first malformed id, if any. -/
def firstMalformed : List OrderItemIn → Option String
  | [] => none
  | it :: rest =>
    if isValidObjectId it.item_id then firstMalformed rest else some it.item_id

/-- The catalog query and lookup dictionary of src/main.py lines 131-132:
`find({"_id": {"$in": item_ids}, "available": True})` filtered into a dict
keyed by `str(doc["_id"])`; a Python dict comprehension keeps the last
document for a repeated key, hence the `reverse`.  (Mongo's unique `_id`
index makes repeats impossible, but the model keeps the dict's semantics.) -/
def menuLookup (items : List BakeryItemDoc) (reqIds : List String)
    (id : String) : Option BakeryItemDoc :=
  ((items.filter (fun d => reqIds.contains d.id && d.available)).reverse).find?
    (fun d => d.id == id)

/-- The pricing loop of src/main.py lines 134-149: resolve each line against
the fetched menu, raising `Item not available` on the first miss; otherwise
accumulate the snapshot line and the running total. -/
def buildLines (menu : String → Option BakeryItemDoc) :
    List OrderItemIn → List OrderLine → ℚ → Except ApiError (List OrderLine × ℚ)
  | [], acc, total => .ok (acc, total)
  | it :: rest, acc, total =>
    match menu it.item_id with
    | none => .error ⟨400, "Item not available: " ++ it.item_id⟩
    | some doc =>
      let unit_price := doc.price
      let subtotal := unit_price * it.quantity
      buildLines menu rest
        (acc ++ [{ item_id := it.item_id
                   name := doc.name
                   unit_price := unit_price
                   quantity := it.quantity
                   subtotal := subtotal }])
        (total + subtotal)

/-- `POST /api/orders` (src/main.py lines 118-162).  `now` is the
`datetime.utcnow()` reading, `fresh` the store-generated id.  Returns the
resulting store state and the response. -/
def place_order (db : DB) (payload : CreateOrderRequest) (now : DateTime)
    (fresh : String) : DB × Except ApiError OrderDoc :=
  match firstMalformed payload.items with
  | some bad => (db, .error ⟨400, "Invalid item id: " ++ bad⟩)
  | none =>
    let reqIds := payload.items.map (fun it => it.item_id)
    match buildLines (menuLookup db.items reqIds) payload.items [] 0 with
    | .error e => (db, .error e)
    | .ok (lines, total) =>
      let order_number := "ORD-" ++ fmtCompact now
      let docIn : OrderDocIn :=
        { items := lines
          customer := payload.customer
          status := "pending"
          total_amount := round2 total
          order_number := order_number }
      let (db', stored) := create_document_order db docIn fresh now
      (db', .ok stored)

/-- Mongo `update_one(filter, {"$set": ...})`: apply `f` to the first element
matching `p` (at most one matches by the unique `_id` index) and report the
matched count. -/
def updateFirst {α : Type} (p : α → Bool) (f : α → α) :
    List α → List α × Nat
  | [] => ([], 0)
  | x :: xs =>
    if p x then (f x :: xs, 1)
    else
      let r := updateFirst p f xs
      (x :: r.1, r.2)

/-- `PUT /api/items/{item_id}` (src/main.py lines 88-100): `$set` all
`BakeryItem` fields plus `updated_at`, 400 on a malformed id, 404 when
nothing matched; on success return the re-fetched document.  The
`update_one`/`find_one` filters compare `ObjectId(item_id)` against the
stored `_id` by value, i.e. the normalized request id against the canonical
stored form. -/
def update_item (db : DB) (item_id : String) (item : BakeryItem)
    (now : DateTime) : DB × Except ApiError (Option BakeryItemDoc) :=
  if isValidObjectId item_id then
    let r := updateFirst (fun d => d.id == normalizeOid item_id)
      (fun d =>
        { d with
          name := item.name
          description := item.description
          price := item.price
          image_url := item.image_url
          category := item.category
          available := item.available
          updated_at := some now })
      db.items
    let db' : DB := { db with items := r.1 }
    if r.2 == 0 then (db', .error ⟨404, "Item not found"⟩)
    else (db', .ok (r.1.find? (fun d => d.id == normalizeOid item_id)))
  else (db, .error ⟨400, "Invalid item id"⟩)

/-- `PATCH /api/orders/{order_id}/status` (src/main.py lines 180-192): 400 on
a malformed id before any store access, then `update_one` setting `status`
and `updated_at`, 404 when nothing matched, else the re-fetched document.
The `update_one`/`find_one` filters compare `ObjectId(order_id)` against the
stored `_id` by value, i.e. the normalized request id against the canonical
stored form. -/
def update_order_status (db : DB) (order_id : String) (status : String)
    (now : DateTime) : DB × Except ApiError (Option OrderDoc) :=
  if isValidObjectId order_id then
    let r := updateFirst (fun o => o.id == normalizeOid order_id)
      (fun o => { o with status := status, updated_at := some now })
      db.orders
    let db' : DB := { db with orders := r.1 }
    if r.2 == 0 then (db', .error ⟨404, "Order not found"⟩)
    else (db', .ok (r.1.find? (fun o => o.id == normalizeOid order_id)))
  else (db, .error ⟨400, "Invalid order id"⟩)

/-- Lexicographic order on character lists by code point, the order Mongo's
default (simple binary) collation uses when `$sort` compares string keys. -/
def lexLe : List Char → List Char → Bool
  | [], _ => true
  | _ :: _, [] => false
  | a :: as, b :: bs =>
    if a.toNat < b.toNat then true
    else if b.toNat < a.toNat then false
    else lexLe as bs

/-- String comparison used by the `$sort` stage on string group keys. -/
def strLe (a b : String) : Bool := lexLe a.data b.data

/-- One element of the analytics `by_day` list (src/main.py line 213). -/
structure DayGroup where
  date : String
  orders : Nat
  revenue : ℚ
deriving DecidableEq, Repr

/-- One element of the analytics `top_items` list (src/main.py line 223). -/
structure TopItem where
  name : String
  quantity : Nat
  revenue : ℚ
deriving DecidableEq, Repr

/-- The analytics response object (src/main.py lines 225-230). -/
structure AnalyticsResult where
  total_orders : Nat
  total_revenue : ℚ
  by_day : List DayGroup
  top_items : List TopItem
deriving DecidableEq, Repr

/-- `sum(o.get("total_amount", 0.0) for o in db["order"].find({}))`
(src/main.py line 203): Python's left fold with start value 0. -/
def sumAmounts (orders : List OrderDoc) : ℚ :=
  orders.foldl (fun acc o => acc + o.total_amount) 0

/-- The `$group` stage keyed by formatted creation date (src/main.py
lines 207-208): one group per distinct date, with order count and summed
revenue.  Mongo emits groups in unspecified order; the following `$sort` on
the distinct keys makes the order canonical, so the enumeration order of
the distinct keys here is immaterial. -/
def dayGroups (orders : List OrderDoc) : List DayGroup :=
  ((orders.map (fun o => fmtDate o.created_at)).dedup).map (fun k =>
    let matching := orders.filter (fun o => fmtDate o.created_at == k)
    { date := k
      orders := matching.length
      revenue := (matching.map (fun o => o.total_amount)).sum })

/-- The `$unwind`/`$group` stages keyed by line name (src/main.py
lines 216-218): one group per distinct line name across all orders'
`items` arrays, with summed quantity and subtotal. -/
def itemGroups (orders : List OrderDoc) : List TopItem :=
  let allLines := orders.flatMap (fun o => o.items)
  ((allLines.map (fun l => l.name)).dedup).map (fun n =>
    let matching := allLines.filter (fun l => l.name == n)
    { name := n
      quantity := (matching.map (fun l => l.quantity)).sum
      revenue := (matching.map (fun l => l.subtotal)).sum })

/-- `GET /api/analytics` (src/main.py lines 196-230): read-only summary.
`by_day` sorts its groups ascending by date key then keeps the first 14;
`top_items` sorts descending by quantity then keeps the first 5. -/
def analytics (db : DB) : AnalyticsResult :=
  { total_orders := db.orders.length
    total_revenue := round2 (sumAmounts db.orders)
    by_day := ((dayGroups db.orders).mergeSort
      (fun a b => strLe a.date b.date)).take 14
    top_items := ((itemGroups db.orders).mergeSort
      (fun a b => decide (b.quantity ≤ a.quantity))).take 5 }

/-- The first available catalog item with a given id; with the unique `_id`
index this is "the" catalog item the id denotes, if it is available. -/
def availableItem (db : DB) (id : String) : Option BakeryItemDoc :=
  db.items.find? (fun d => d.id == id && d.available)

/-- The current catalog price an id denotes (0 when the id does not denote an
available item; that case never arises in the statements using it). -/
def catalogPrice (db : DB) (id : String) : ℚ :=
  ((availableItem db id).map (fun d => d.price)).getD 0

/-- The unit price the pricing loop reads for a request line. -/
def priceOf (menu : String → Option BakeryItemDoc) (it : OrderItemIn) : ℚ :=
  ((menu it.item_id).map (fun d => d.price)).getD 0

/-- Sample customer used in concrete instantiations. -/
def wCustomer : CustomerInfoIn := { name := "Ann" }

/-- Sample available catalog item (the spec §8 example's item A, price 3.50). -/
def wItemA : BakeryItemDoc :=
  { id := "aaaaaaaaaaaaaaaaaaaaaaaa", name := "Croissant", price := 7/2,
    available := true }

/-- Sample unavailable catalog item (the spec §8 example's item B, price 2). -/
def wItemB : BakeryItemDoc :=
  { id := "bbbbbbbbbbbbbbbbbbbbbbbb", name := "Baguette", price := 2,
    available := false }

/-- Sample store: two catalog items, no orders. -/
def wDb : DB := { items := [wItemA, wItemB], orders := [] }

/-- Sample clock reading. -/
def wNow : DateTime := ⟨2024, 3, 7, 9, 5, 30⟩

/-- The order persisted for an empty-lines request with fresh id "w51". -/
def wOrd1 : OrderDoc :=
  { id := "w51", items := [], customer := wCustomer, status := "pending",
    total_amount := round2 0, order_number := "ORD-" ++ fmtCompact wNow,
    created_at := wNow }

/-- The order persisted for an empty-lines request with fresh id "w52". -/
def wOrd2 : OrderDoc :=
  { id := "w52", items := [], customer := wCustomer, status := "pending",
    total_amount := round2 0, order_number := "ORD-" ++ fmtCompact wNow,
    created_at := wNow }

lemma round2_zero : round2 0 = 0 := by
  simp [round2]

lemma firstMalformed_eq_none {l : List OrderItemIn}
    (h : ∀ it ∈ l, isValidObjectId it.item_id = true) :
    firstMalformed l = none := by
  induction l with
  | nil => rfl
  | cons it rest ih =>
    have hit := h it (List.mem_cons_self it rest)
    simp only [firstMalformed, hit, if_true]
    exact ih fun x hx => h x (List.mem_cons_of_mem it hx)

lemma firstMalformed_eq_some {l : List OrderItemIn}
    (h : ∃ it ∈ l, ¬ isValidObjectId it.item_id = true) :
    ∃ bad, firstMalformed l = some bad ∧ ¬ isValidObjectId bad = true ∧
      ∃ it ∈ l, it.item_id = bad := by
  induction l with
  | nil => simp at h
  | cons it rest ih =>
    by_cases hv : isValidObjectId it.item_id = true
    · have h' : ∃ x ∈ rest, ¬ isValidObjectId x.item_id = true := by
        obtain ⟨x, hx, hxv⟩ := h
        rcases List.mem_cons.mp hx with rfl | hx'
        · exact absurd hv hxv
        · exact ⟨x, hx', hxv⟩
      obtain ⟨bad, h1, h2, x, hx, hxe⟩ := ih h'
      exact ⟨bad, by simp [firstMalformed, hv, h1], h2,
        x, List.mem_cons_of_mem it hx, hxe⟩
    · exact ⟨it.item_id, by simp [firstMalformed, hv], hv,
        it, List.mem_cons_self it rest, rfl⟩

lemma menuLookup_isSome {items : List BakeryItemDoc} {reqIds : List String}
    {id : String} {d : BakeryItemDoc} (hd : d ∈ items) (hid : d.id = id)
    (hav : d.available = true) (hreq : id ∈ reqIds) :
    (menuLookup items reqIds id).isSome = true := by
  apply List.find?_isSome.mpr
  refine ⟨d, ?_, by simp [hid]⟩
  rw [List.mem_reverse, List.mem_filter]
  exact ⟨hd, by simp [hid, hav, hreq]⟩

lemma menuLookup_eq_none {items : List BakeryItemDoc} {reqIds : List String}
    {id : String}
    (h : ∀ d ∈ items, ¬ (d.id = id ∧ d.available = true)) :
    menuLookup items reqIds id = none := by
  rcases he : menuLookup items reqIds id with _ | d
  · rfl
  · exfalso
    have hmem := List.mem_of_find?_eq_some he
    have hp := List.find?_some he
    rw [List.mem_reverse, List.mem_filter] at hmem
    have hav : d.available = true := by
      have := hmem.2
      simp only [Bool.and_eq_true] at this
      exact this.2
    exact h d hmem.1 ⟨by simpa using hp, hav⟩

lemma menuLookup_eq_availableItem {db : DB} {reqIds : List String}
    {id : String} {d : BakeryItemDoc}
    (hnd : (db.items.map (fun d => d.id)).Nodup)
    (hd : d ∈ db.items) (hid : d.id = id) (hav : d.available = true)
    (hreq : id ∈ reqIds) :
    menuLookup db.items reqIds id = some d ∧ availableItem db id = some d := by
  have huniq : ∀ x ∈ db.items, x.id = id → x = d := by
    intro x hx hxid
    exact List.inj_on_of_nodup_map hnd hx hd (hxid.trans hid.symm)
  constructor
  · have hsome := menuLookup_isSome hd hid hav hreq
    obtain ⟨x, hx⟩ := Option.isSome_iff_exists.mp hsome
    have hxmem := List.mem_of_find?_eq_some hx
    have hxp := List.find?_some hx
    rw [List.mem_reverse, List.mem_filter] at hxmem
    have : x = d := huniq x hxmem.1 (by simpa using hxp)
    rw [hx, this]
  · have hsome : (availableItem db id).isSome = true := by
      apply List.find?_isSome.mpr
      exact ⟨d, hd, by simp [hid, hav]⟩
    obtain ⟨x, hx⟩ := Option.isSome_iff_exists.mp hsome
    have hxmem := List.mem_of_find?_eq_some hx
    have hxp := List.find?_some hx
    simp only [Bool.and_eq_true, beq_iff_eq] at hxp
    have : x = d := huniq x hxmem hxp.1
    rw [hx, this]

lemma updateFirst_nomatch {α : Type} {p : α → Bool} {f : α → α}
    {l : List α} (h : ∀ x ∈ l, ¬ p x = true) :
    updateFirst p f l = (l, 0) := by
  induction l with
  | nil => rfl
  | cons x xs ih =>
    have hx : p x = false := by
      have := h x (List.mem_cons_self x xs)
      simpa using this
    simp only [updateFirst, hx, Bool.false_eq_true, if_false]
    rw [ih fun y hy => h y (List.mem_cons_of_mem x hy)]

lemma sumAmounts_eq (orders : List OrderDoc) :
    sumAmounts orders = (orders.map (fun o => o.total_amount)).sum := by
  have key : ∀ (l : List OrderDoc) (a : ℚ),
      l.foldl (fun acc o => acc + o.total_amount) a
        = a + (l.map (fun o => o.total_amount)).sum := by
    intro l
    induction l with
    | nil => intro a; simp
    | cons o rest ih =>
      intro a
      simp only [List.foldl_cons, List.map_cons, List.sum_cons, ih]
      ring
  simpa [sumAmounts] using key orders 0

lemma buildLines_ok {menu : String → Option BakeryItemDoc} :
    ∀ {l : List OrderItemIn},
      (∀ it ∈ l, (menu it.item_id).isSome = true) →
      ∀ acc total, ∃ lines t,
        buildLines menu l acc total = .ok (lines, t) ∧
        t = total + (l.map (fun it => priceOf menu it * it.quantity)).sum ∧
        lines.length = acc.length + l.length ∧
        ∀ ln ∈ lines, ln ∈ acc ∨ ln.subtotal = ln.unit_price * ln.quantity := by
  intro l
  induction l with
  | nil =>
    intro _ acc total
    exact ⟨acc, total, rfl, by simp, by simp, fun ln hln => Or.inl hln⟩
  | cons it rest ih =>
    intro h acc total
    obtain ⟨doc, hdoc⟩ := Option.isSome_iff_exists.mp
      (h it (List.mem_cons_self it rest))
    have hrest : ∀ x ∈ rest, (menu x.item_id).isSome = true :=
      fun x hx => h x (List.mem_cons_of_mem it hx)
    obtain ⟨lines, t, heq, ht, hlen, hprop⟩ := ih hrest
      (acc ++ [{ item_id := it.item_id
                 name := doc.name
                 unit_price := doc.price
                 quantity := it.quantity
                 subtotal := doc.price * it.quantity }])
      (total + doc.price * it.quantity)
    refine ⟨lines, t, ?_, ?_, ?_, ?_⟩
    · simp only [buildLines, hdoc]
      exact heq
    · rw [ht]
      have hp : priceOf menu it = doc.price := by simp [priceOf, hdoc]
      simp only [List.map_cons, List.sum_cons, hp]
      ring
    · simp only [List.length_append, List.length_cons,
        List.length_nil] at hlen
      simp only [List.length_cons, hlen]
      omega
    · intro ln hln
      rcases hprop ln hln with hacc | hsub
      · rcases List.mem_append.mp hacc with h1 | h2
        · exact Or.inl h1
        · right
          have : ln = { item_id := it.item_id
                        name := doc.name
                        unit_price := doc.price
                        quantity := it.quantity
                        subtotal := doc.price * it.quantity } := by
            simpa using h2
          rw [this]
      · exact Or.inr hsub

lemma buildLines_err {menu : String → Option BakeryItemDoc} :
    ∀ {l : List OrderItemIn},
      (∃ it ∈ l, menu it.item_id = none) →
      ∀ acc total, ∃ bad,
        buildLines menu l acc total
          = .error ⟨400, "Item not available: " ++ bad⟩ ∧
        menu bad = none ∧ ∃ it ∈ l, it.item_id = bad := by
  intro l
  induction l with
  | nil => intro h; simp at h
  | cons it rest ih =>
    intro h acc total
    rcases hdoc : menu it.item_id with _ | doc
    · exact ⟨it.item_id, by simp [buildLines, hdoc], hdoc,
        it, List.mem_cons_self it rest, rfl⟩
    · have h' : ∃ x ∈ rest, menu x.item_id = none := by
        obtain ⟨x, hx, hxn⟩ := h
        rcases List.mem_cons.mp hx with rfl | hx'
        · rw [hdoc] at hxn; exact absurd hxn (by simp)
        · exact ⟨x, hx', hxn⟩
      obtain ⟨bad, h1, h2, x, hx, hxe⟩ := ih h' _ _
      exact ⟨bad, by simp only [buildLines, hdoc]; exact h1, h2,
        x, List.mem_cons_of_mem it hx, hxe⟩

lemma lexLe_head_le {a b : Char} {as bs : List Char}
    (h : lexLe (a :: as) (b :: bs) = true) : a.toNat ≤ b.toNat := by
  simp only [lexLe] at h
  split at h
  · omega
  · split at h
    · exact absurd h (by simp)
    · omega

lemma lexLe_cons_of_eq {a b : Char} (as bs : List Char)
    (h : a.toNat = b.toNat) : lexLe (a :: as) (b :: bs) = lexLe as bs := by
  simp only [lexLe]
  rw [if_neg (by omega), if_neg (by omega)]

lemma lexLe_total : ∀ as bs : List Char, lexLe as bs = true ∨ lexLe bs as = true
  | [], _ => Or.inl rfl
  | _ :: _, [] => Or.inr rfl
  | a :: as, b :: bs => by
    by_cases h1 : a.toNat < b.toNat
    · left; simp [lexLe, h1]
    · by_cases h2 : b.toNat < a.toNat
      · right; simp [lexLe, h2]
      · have heq : a.toNat = b.toNat := by omega
        rw [lexLe_cons_of_eq as bs heq, lexLe_cons_of_eq bs as heq.symm]
        exact lexLe_total as bs

lemma lexLe_trans : ∀ as bs cs : List Char, lexLe as bs = true →
    lexLe bs cs = true → lexLe as cs = true
  | [], _, _, _, _ => rfl
  | _ :: _, [], _, h1, _ => by simp [lexLe] at h1
  | _ :: _, _ :: _, [], _, h2 => by simp [lexLe] at h2
  | a :: as, b :: bs, c :: cs, h1, h2 => by
    have hab := lexLe_head_le h1
    have hbc := lexLe_head_le h2
    by_cases hac : a.toNat < c.toNat
    · simp [lexLe, hac]
    · have h1' : a.toNat = b.toNat := by omega
      have h2' : b.toNat = c.toNat := by omega
      rw [lexLe_cons_of_eq as cs (by omega)]
      rw [lexLe_cons_of_eq as bs h1'] at h1
      rw [lexLe_cons_of_eq bs cs h2'] at h2
      exact lexLe_trans as bs cs h1 h2

lemma strLe_total (a b : String) : strLe a b = true ∨ strLe b a = true :=
  lexLe_total a.data b.data

lemma strLe_trans {a b c : String} (h1 : strLe a b = true)
    (h2 : strLe b c = true) : strLe a c = true :=
  lexLe_trans a.data b.data c.data h1 h2

/-- Claim C3: an order request containing a malformed item identifier fails
with `InvalidReference` (HTTP 400, "Invalid item id: ..." naming a malformed
requested id), and it does so before any catalog read or store write: the
result is the same for every store state, and the store is returned
unchanged. -/
theorem claim_C3 (p : CreateOrderRequest)
    (h : ∃ it ∈ p.items, ¬ isValidObjectId it.item_id = true) :
    ∃ bad, ¬ isValidObjectId bad = true ∧ (∃ it ∈ p.items, it.item_id = bad) ∧
      ∀ db now fresh, place_order db p now fresh
        = (db, .error ⟨400, "Invalid item id: " ++ bad⟩) := by
  obtain ⟨bad, h1, h2, h3⟩ := firstMalformed_eq_some h
  refine ⟨bad, h2, h3, ?_⟩
  intro db now fresh
  simp [place_order, h1]

/-- Witness for C3: a request with the malformed id "zz". -/
theorem claim_C3_witness :
    ∃ bad, ¬ isValidObjectId bad = true ∧
      (∃ it ∈ (CreateOrderRequest.mk [⟨"zz", 1⟩] wCustomer).items,
        it.item_id = bad) ∧
      ∀ db now fresh,
        place_order db (CreateOrderRequest.mk [⟨"zz", 1⟩] wCustomer) now fresh
          = (db, .error ⟨400, "Invalid item id: " ++ bad⟩) :=
  claim_C3 (CreateOrderRequest.mk [⟨"zz", 1⟩] wCustomer)
    ⟨⟨"zz", 1⟩, by simp, by decide⟩

/-- Claim C4: catalog updates write only the items collection; the orders
collection — and hence every stored order's lines and total — is unchanged
by `update_item`, for every input and on every code path. -/
theorem claim_C4 (db : DB) (item_id : String) (item : BakeryItem)
    (now : DateTime) :
    ((update_item db item_id item now).1).orders = db.orders := by
  simp only [update_item]
  split
  · split
    · rfl
    · rfl
  · rfl

/-- Claim C7: a status transition with a malformed order id fails with
`InvalidReference` (HTTP 400) leaving the store exactly as given, and a
well-formed id matching no persisted order — matching by ObjectId value,
i.e. no stored canonical id equals the request id's normal form — fails
with `NotFound` (HTTP 404), also leaving the store exactly as given. -/
theorem claim_C7 (db : DB) (order_id status : String) (now : DateTime) :
    (isValidObjectId order_id = false →
      update_order_status db order_id status now
        = (db, .error ⟨400, "Invalid order id"⟩)) ∧
    (isValidObjectId order_id = true →
      (∀ o ∈ db.orders, ¬ o.id = normalizeOid order_id) →
      update_order_status db order_id status now
        = (db, .error ⟨404, "Order not found"⟩)) := by
  constructor
  · intro h
    simp [update_order_status, h]
  · intro hv hno
    have hupd : updateFirst (fun o => o.id == normalizeOid order_id)
        (fun o => { o with status := status, updated_at := some now })
        db.orders = (db.orders, 0) :=
      updateFirst_nomatch (fun x hx => by simpa using hno x hx)
    simp [update_order_status, hv, hupd]

/-- Witness for C7: the malformed id "nope" and an unknown well-formed id
against the sample store (which has no orders). -/
theorem claim_C7_witness :
    update_order_status wDb "nope" "confirmed" wNow
      = (wDb, .error ⟨400, "Invalid order id"⟩) ∧
    update_order_status wDb "cccccccccccccccccccccccc" "confirmed" wNow
      = (wDb, .error ⟨404, "Order not found"⟩) :=
  ⟨(claim_C7 wDb "nope" "confirmed" wNow).1 (by decide),
   (claim_C7 wDb "cccccccccccccccccccccccc" "confirmed" wNow).2 (by decide)
     (by simp [wDb])⟩

/-- Claim C10: an order request with an empty items list is not rejected:
placement succeeds for every store, customer, clock and fresh id, persisting
an order with an empty line list, total 0 and status "pending". -/
theorem claim_C10 (db : DB) (c : CustomerInfoIn) (now : DateTime)
    (fresh : String) :
    ∃ o : OrderDoc,
      place_order db ⟨[], c⟩ now fresh
        = ({ db with orders := db.orders ++ [o] }, Except.ok o) ∧
      o.items = [] ∧ o.total_amount = 0 ∧ o.status = "pending" :=
  ⟨{ id := fresh, items := [], customer := c, status := "pending",
     total_amount := round2 0, order_number := "ORD-" ++ fmtCompact now,
     created_at := now },
   rfl, rfl, round2_zero, rfl⟩

lemma place_order_ok {db : DB} {p : CreateOrderRequest} {now : DateTime}
    {fresh : String} {db' : DB} {o : OrderDoc}
    (h : place_order db p now fresh = (db', Except.ok o)) :
    o.status = "pending" ∧ o.order_number = "ORD-" ++ fmtCompact now ∧
      db' = { db with orders := db.orders ++ [o] } := by
  rcases hm : firstMalformed p.items with _ | bad
  · rcases hb : buildLines
        (menuLookup db.items (p.items.map fun it => it.item_id))
        p.items [] 0 with e | ⟨lines, total⟩
    · simp [place_order, hm, hb] at h
    · simp only [place_order, hm, hb, create_document_order] at h
      obtain ⟨h1, h2⟩ := Prod.mk.injEq .. ▸ h
      have h2' := (Except.ok.injEq ..).mp h2
      constructor
      · rw [← h2']
      constructor
      · rw [← h2']
      · rw [← h1, ← h2']
  · simp [place_order, hm] at h

/-- Claim C5: the order number is "ORD-" followed by the compact
`YYYYMMDDHHMMSS` rendering of the placement-time UTC clock reading, so any
two successful placements sharing the same second-resolution clock reading
receive the same order number — uniqueness is not guaranteed. -/
theorem claim_C5 (db₁ db₂ : DB) (p₁ p₂ : CreateOrderRequest) (now : DateTime)
    (f₁ f₂ : String) (db₁' db₂' : DB) (o₁ o₂ : OrderDoc)
    (h₁ : place_order db₁ p₁ now f₁ = (db₁', Except.ok o₁))
    (h₂ : place_order db₂ p₂ now f₂ = (db₂', Except.ok o₂)) :
    o₁.order_number = "ORD-" ++ fmtCompact now ∧
      o₁.order_number = o₂.order_number := by
  have e₁ := (place_order_ok h₁).2.1
  have e₂ := (place_order_ok h₂).2.1
  exact ⟨e₁, e₁.trans e₂.symm⟩

/-- Witness for C5: two placements against the sample store in the same
second receive the identical order number "ORD-20240307090530". -/
theorem claim_C5_witness :
    place_order wDb ⟨[], wCustomer⟩ wNow "w51"
      = ({ wDb with orders := wDb.orders ++ [wOrd1] }, Except.ok wOrd1) ∧
    place_order wDb ⟨[], wCustomer⟩ wNow "w52"
      = ({ wDb with orders := wDb.orders ++ [wOrd2] }, Except.ok wOrd2) ∧
    wOrd1.order_number = "ORD-" ++ fmtCompact wNow ∧
    wOrd1.order_number = wOrd2.order_number :=
  ⟨rfl, rfl,
   (claim_C5 wDb wDb ⟨[], wCustomer⟩ ⟨[], wCustomer⟩ wNow "w51" "w52"
     _ _ wOrd1 wOrd2 rfl rfl).1,
   (claim_C5 wDb wDb ⟨[], wCustomer⟩ ⟨[], wCustomer⟩ wNow "w51" "w52"
     _ _ wOrd1 wOrd2 rfl rfl).2⟩

/-- Claim C6: every order the placement workflow persists is created with
status "pending", both in the response and in the stored collection. -/
theorem claim_C6 (db : DB) (p : CreateOrderRequest) (now : DateTime)
    (fresh : String) (db' : DB) (o : OrderDoc)
    (h : place_order db p now fresh = (db', Except.ok o)) :
    o.status = "pending" ∧ o ∈ db'.orders := by
  obtain ⟨hs, _, hdb⟩ := place_order_ok h
  refine ⟨hs, ?_⟩
  rw [hdb]
  simp

/-- Witness for C6: a concrete successful placement has status "pending". -/
theorem claim_C6_witness :
    wOrd1.status = "pending" ∧
      wOrd1 ∈ ({ wDb with orders := wDb.orders ++ [wOrd1] } : DB).orders :=
  claim_C6 wDb ⟨[], wCustomer⟩ wNow "w51" _ wOrd1 rfl

/-- Claim C2: an order request whose ids are all well-formed but where some
id denotes no available catalog item (unknown or unavailable) fails with
`ItemUnavailable` (HTTP 400, "Item not available: ..." naming such an id)
and leaves the order store exactly as given — all-or-nothing, regardless of
the other lines. -/
theorem claim_C2 (db : DB) (p : CreateOrderRequest) (now : DateTime)
    (fresh : String)
    (hval : ∀ it ∈ p.items, isValidObjectId it.item_id = true)
    (hbad : ∃ it ∈ p.items, ∀ d ∈ db.items,
      ¬ (d.id = it.item_id ∧ d.available = true)) :
    ∃ bad, place_order db p now fresh
        = (db, .error ⟨400, "Item not available: " ++ bad⟩) ∧
      (∃ it ∈ p.items, it.item_id = bad) ∧
      ∀ d ∈ db.items, ¬ (d.id = bad ∧ d.available = true) := by
  have hfm := firstMalformed_eq_none hval
  have hex : ∃ it ∈ p.items,
      menuLookup db.items (p.items.map fun it => it.item_id) it.item_id
        = none := by
    obtain ⟨it, hit, hno⟩ := hbad
    exact ⟨it, hit, menuLookup_eq_none hno⟩
  obtain ⟨bad, h1, h2, it0, hit0, hide⟩ := buildLines_err hex [] 0
  refine ⟨bad, ?_, ⟨it0, hit0, hide⟩, ?_⟩
  · simp [place_order, hfm, h1]
  · intro d hd hcontra
    have hreq : bad ∈ p.items.map fun it => it.item_id := by
      rw [← hide]
      exact List.mem_map_of_mem _ hit0
    have hsome := menuLookup_isSome hd hcontra.1 hcontra.2 hreq
    rw [h2] at hsome
    simp at hsome

/-- Witness for C2: the spec §8 example — request {A×2, B×1} where A is
available and B unavailable fails naming B's id, and the store is
unchanged. -/
theorem claim_C2_witness :
    ∃ bad, place_order wDb
        ⟨[⟨"aaaaaaaaaaaaaaaaaaaaaaaa", 2⟩, ⟨"bbbbbbbbbbbbbbbbbbbbbbbb", 1⟩],
          wCustomer⟩ wNow "w2"
        = (wDb, .error ⟨400, "Item not available: " ++ bad⟩) ∧
      (∃ it ∈ (CreateOrderRequest.mk
          [⟨"aaaaaaaaaaaaaaaaaaaaaaaa", 2⟩, ⟨"bbbbbbbbbbbbbbbbbbbbbbbb", 1⟩]
          wCustomer).items, it.item_id = bad) ∧
      ∀ d ∈ wDb.items, ¬ (d.id = bad ∧ d.available = true) :=
  claim_C2 wDb
    ⟨[⟨"aaaaaaaaaaaaaaaaaaaaaaaa", 2⟩, ⟨"bbbbbbbbbbbbbbbbbbbbbbbb", 1⟩],
      wCustomer⟩ wNow "w2" (by decide)
    ⟨⟨"bbbbbbbbbbbbbbbbbbbbbbbb", 1⟩, by simp, by decide⟩

/-- Claim C1: for an order request whose ids are all well-formed and all
denote available catalog items (with the catalog's ids unique, as Mongo's
`_id` index guarantees), placement succeeds, the persisted order's total is
the 2-decimal rounding of the sum of current catalog price × quantity over
the requested lines, and every stored line's subtotal is its unit price ×
quantity. -/
theorem claim_C1 (db : DB) (p : CreateOrderRequest) (now : DateTime)
    (fresh : String)
    (hnd : (db.items.map fun d => d.id).Nodup)
    (hval : ∀ it ∈ p.items, isValidObjectId it.item_id = true)
    (hres : ∀ it ∈ p.items, ∃ d ∈ db.items,
      d.id = it.item_id ∧ d.available = true) :
    ∃ o : OrderDoc,
      place_order db p now fresh
        = ({ db with orders := db.orders ++ [o] }, Except.ok o) ∧
      o.total_amount = round2
        ((p.items.map fun it => catalogPrice db it.item_id * it.quantity).sum) ∧
      o.items.length = p.items.length ∧
      ∀ ln ∈ o.items, ln.subtotal = ln.unit_price * ln.quantity := by
  have hfm := firstMalformed_eq_none hval
  have hkey : ∀ it ∈ p.items,
      menuLookup db.items (p.items.map fun x => x.item_id) it.item_id
          = availableItem db it.item_id ∧
        (menuLookup db.items (p.items.map fun x => x.item_id)
          it.item_id).isSome = true := by
    intro it hit
    obtain ⟨d, hd, hid, hav⟩ := hres it hit
    have hreq : it.item_id ∈ p.items.map fun x => x.item_id :=
      List.mem_map_of_mem _ hit
    obtain ⟨e1, e2⟩ := menuLookup_eq_availableItem hnd hd hid hav hreq
    exact ⟨e1.trans e2.symm, by rw [e1]; rfl⟩
  obtain ⟨lines, t, heq, ht, hlen, hprop⟩ :=
    buildLines_ok (fun it hit => (hkey it hit).2) [] 0
  have hmap : (p.items.map fun it =>
        priceOf (menuLookup db.items (p.items.map fun x => x.item_id)) it
          * it.quantity)
      = p.items.map fun it => catalogPrice db it.item_id * it.quantity := by
    apply List.map_congr_left
    intro it hit
    have hpc := (hkey it hit).1
    simp [priceOf, catalogPrice, hpc]
  refine ⟨{ id := fresh, items := lines, customer := p.customer,
            status := "pending", total_amount := round2 t,
            order_number := "ORD-" ++ fmtCompact now, created_at := now },
    ?_, ?_, ?_, ?_⟩
  · simp [place_order, hfm, heq, create_document_order]
  · show round2 t = _
    rw [ht, hmap, zero_add]
  · show lines.length = _
    simpa using hlen
  · intro ln hln
    rcases hprop ln hln with h | h
    · simp at h
    · exact h

/-- Witness for C1: the spec §8 example — request {A×2} against a catalog
with A (3.50, available) and B (2, unavailable). -/
theorem claim_C1_witness :
    ∃ o : OrderDoc,
      place_order wDb ⟨[⟨"aaaaaaaaaaaaaaaaaaaaaaaa", 2⟩], wCustomer⟩ wNow "w1"
        = ({ wDb with orders := wDb.orders ++ [o] }, Except.ok o) ∧
      o.total_amount = round2
        (((CreateOrderRequest.mk [⟨"aaaaaaaaaaaaaaaaaaaaaaaa", 2⟩]
            wCustomer).items.map
          (fun it => catalogPrice wDb it.item_id * it.quantity)).sum) ∧
      o.items.length = (CreateOrderRequest.mk
        [⟨"aaaaaaaaaaaaaaaaaaaaaaaa", 2⟩] wCustomer).items.length ∧
      ∀ ln ∈ o.items, ln.subtotal = ln.unit_price * ln.quantity :=
  claim_C1 wDb ⟨[⟨"aaaaaaaaaaaaaaaaaaaaaaaa", 2⟩], wCustomer⟩ wNow "w1"
    (by decide) (by decide)
    (fun it hit => ⟨wItemA, by simp [wDb], by
      have : it = ⟨"aaaaaaaaaaaaaaaaaaaaaaaa", 2⟩ := by simpa using hit
      rw [this]
      exact ⟨rfl, rfl⟩⟩)

/-- Claim C8: the analytics summary's `total_revenue` equals the sum of
`total_amount` over all persisted orders rounded to 2 decimals, and
`total_orders` is the unfiltered order count.  `analytics` is a pure
function of the store — it returns only a summary and no store state, so it
performs no writes. -/
theorem claim_C8 (db : DB) :
    (analytics db).total_revenue
        = round2 ((db.orders.map fun o => o.total_amount).sum) ∧
      (analytics db).total_orders = db.orders.length :=
  ⟨by simp [analytics, sumAmounts_eq], rfl⟩

/-- Claim C9: `top_items` has at most 5 entries and is sorted by descending
total quantity; `by_day` has at most 14 entries and is sorted ascending by
date key, and since the truncation happens after the ascending sort, every
kept group's date is ≤ every dropped group's date (the kept 14 are the
earliest). -/
theorem claim_C9 (db : DB) :
    (analytics db).top_items.length ≤ 5 ∧
    List.Pairwise (fun a b : TopItem => b.quantity ≤ a.quantity)
      (analytics db).top_items ∧
    (analytics db).by_day.length ≤ 14 ∧
    List.Pairwise (fun a b : DayGroup => strLe a.date b.date = true)
      (analytics db).by_day ∧
    ∀ a ∈ (analytics db).by_day,
      ∀ b ∈ ((dayGroups db.orders).mergeSort
          (fun a b => strLe a.date b.date)).drop 14,
        strLe a.date b.date = true := by
  have ttrans : ∀ a b c : TopItem,
      (fun a b : TopItem => decide (b.quantity ≤ a.quantity)) a b = true →
      (fun a b : TopItem => decide (b.quantity ≤ a.quantity)) b c = true →
      (fun a b : TopItem => decide (b.quantity ≤ a.quantity)) a c = true := by
    intro a b c h1 h2
    simp only [decide_eq_true_eq] at *
    omega
  have ttotal : ∀ a b : TopItem,
      ((fun a b : TopItem => decide (b.quantity ≤ a.quantity)) a b ||
       (fun a b : TopItem => decide (b.quantity ≤ a.quantity)) b a) = true := by
    intro a b
    simp only [Bool.or_eq_true, decide_eq_true_eq]
    omega
  have hts := List.sorted_mergeSort ttrans ttotal (itemGroups db.orders)
  have dtrans : ∀ a b c : DayGroup,
      (fun a b : DayGroup => strLe a.date b.date) a b = true →
      (fun a b : DayGroup => strLe a.date b.date) b c = true →
      (fun a b : DayGroup => strLe a.date b.date) a c = true :=
    fun _ _ _ h1 h2 => strLe_trans h1 h2
  have dtotal : ∀ a b : DayGroup,
      ((fun a b : DayGroup => strLe a.date b.date) a b ||
       (fun a b : DayGroup => strLe a.date b.date) b a) = true := by
    intro a b
    rcases strLe_total a.date b.date with h | h <;> simp [h]
  have hds := List.sorted_mergeSort dtrans dtotal (dayGroups db.orders)
  refine ⟨?_, ?_, ?_, ?_, ?_⟩
  · exact List.length_take_le 5 _
  · have hsub := List.Pairwise.sublist (List.take_sublist 5 _) hts
    exact hsub.imp fun h => of_decide_eq_true h
  · exact List.length_take_le 14 _
  · exact List.Pairwise.sublist (List.take_sublist 14 _) hds
  · have hall : List.Pairwise
        (fun a b : DayGroup => strLe a.date b.date = true)
        ((((dayGroups db.orders).mergeSort
            (fun a b => strLe a.date b.date)).take 14) ++
         (((dayGroups db.orders).mergeSort
            (fun a b => strLe a.date b.date)).drop 14)) := by
      rw [List.take_append_drop]
      exact hds
    exact (List.pairwise_append.mp hall).2.2
